import Mathlib

/-!
Verification development for the lawncare job-management prototype
(`src/app.py`).  The Python program manages clients, a service catalog and
bookings with a small recurrence engine.  We embed the relevant parts
shallowly:

* Python `datetime.date` values are represented by their proleptic
  Gregorian ordinal (a `Nat`), exactly the internal representation Python
  uses (`date.toordinal`).  Adding a `timedelta` of `n` days is ordinal
  addition by `n`, and date comparison is ordinal comparison.
* `toordinal y m d` converts a calendar date to that ordinal, following
  the standard Gregorian rules (the same `_ymd2ord` computation CPython
  performs), so that concrete calendar dates such as 2024-01-01 can be
  named in theorems.
* Python dictionaries (`ClientDB._clients`, `ServiceCatalog._services`,
  `BookingManager._bookings`) are association lists in insertion order;
  assigning to an existing key replaces the value in place (keeping its
  position, as Python dicts do) and assigning a fresh key appends.
* Python `int` is `Int` (unbounded); `float` fields (`base_price`) are
  never computed with in the code under verification, only stored, so they
  are carried as an opaque numeric payload modelled by `Int`.
* The Python `date` type is bounded (0001-01-01 .. 9999-12-31); arithmetic
  leaving that range raises `OverflowError`.  `occurrence_datesChecked`
  models the method with that bound; `occurrence_dates` is the same
  algorithm over unbounded ordinals.
-/

/-- Python `str.upper()` on one character, for the ASCII range the program
uses (service codes, frequency names). -/
def asciiUpper (c : Char) : Char :=
  if 97 ≤ c.toNat ∧ c.toNat ≤ 122 then Char.ofNat (c.toNat - 32) else c

/-- Python `str.upper()`. -/
def pyUpper (s : String) : String := String.mk (s.data.map asciiUpper)

/-- Python `str.lower()` on one character, ASCII range. -/
def asciiLower (c : Char) : Char :=
  if 65 ≤ c.toNat ∧ c.toNat ≤ 90 then Char.ofNat (c.toNat + 32) else c

/-- Python `str.lower()`. -/
def pyLower (s : String) : String := String.mk (s.data.map asciiLower)

/-- The whitespace characters Python `str.strip()` removes (ASCII part). -/
def isPySpace (c : Char) : Bool :=
  c = ' ' || c = '\t' || c = '\n' || c = '\r' || c = '\x0b' || c = '\x0c'

/-- Python `str.strip()`: drop leading and trailing whitespace. -/
def pyStrip (s : String) : String :=
  String.mk (((s.data.dropWhile isPySpace).reverse.dropWhile isPySpace).reverse)

/-- Gregorian leap-year test, as used by `datetime.date`. -/
def isLeapYear (y : Nat) : Bool :=
  y % 4 == 0 && (y % 100 != 0 || y % 400 == 0)

/-- Number of days in month `m` (1..12) of year `y`. -/
def daysInMonth (y m : Nat) : Nat :=
  if m == 2 then (if isLeapYear y then 29 else 28)
  else if m == 4 || m == 6 || m == 9 || m == 11 then 30
  else 31

/-- Days in year `y` strictly before month `m`. -/
def daysBeforeMonth (y m : Nat) : Nat :=
  (List.range (m - 1)).foldl (fun acc i => acc + daysInMonth y (i + 1)) 0

/-- Days before January 1 of year `y` in the proleptic Gregorian calendar. -/
def daysBeforeYear (y : Nat) : Nat :=
  (y - 1) * 365 + (y - 1) / 4 - (y - 1) / 100 + (y - 1) / 400

/-- Proleptic Gregorian ordinal of the date `y-m-d`: the value that Python
`date(y, m, d).toordinal()` returns (0001-01-01 is ordinal 1). -/
def toordinal (y m d : Nat) : Nat :=
  daysBeforeYear y + daysBeforeMonth y m + d

/-- Ordinal of the Python `date.max`, 9999-12-31.  `date` arithmetic whose
result would exceed this raises `OverflowError`. -/
def MAXORDINAL : Nat := 3652059

/-- The `RepeatFrequency` enum of `app.py`. -/
inductive RepeatFrequency where
  | NONE
  | WEEKLY
  | FORTNIGHTLY
  | MONTHLY
deriving DecidableEq, Repr

/-- The `Service` dataclass of `app.py`.  `base_price` is a stored-only
numeric payload (Python float, never computed with here). -/
structure Service where
  code : String
  name : String
  description : String
  base_price : Int
  duration_minutes : Int
deriving DecidableEq, Repr

/-- The `Booking` dataclass of `app.py`.  `scheduled_date` is a date
ordinal; `repeat_` renders the Python field `repeat`. -/
structure Booking where
  id : Nat
  client_id : Nat
  service_code : String
  scheduled_date : Nat
  repeat_ : RepeatFrequency
  occurrences : Int
  notes : String
deriving DecidableEq, Repr

/-- One pass of the loop body of `Booking.occurrence_dates`: advance
`current` according to the repeat frequency (the `if/elif` chain; a
frequency matching no branch leaves `current` unchanged). -/
def stepDate (f : RepeatFrequency) (d : Nat) : Nat :=
  if f = RepeatFrequency.WEEKLY then d + 7
  else if f = RepeatFrequency.FORTNIGHTLY then d + 14
  else if f = RepeatFrequency.MONTHLY then d + 30
  else d

/-- The dates appended by `k` iterations of the loop in
`Booking.occurrence_dates`, starting from `current = c`. -/
def occLoop (f : RepeatFrequency) (c : Nat) : Nat → List Nat
  | 0 => []
  | k + 1 => stepDate f c :: occLoop f (stepDate f c) k

/-- Embedding of `Booking.occurrence_dates` from `app.py`, over unbounded ordinals:
if `occurrences <= 1` or the repeat is `NONE`, return `[scheduled_date]`;
otherwise start from the anchor and append `occurrences - 1` stepped
dates. -/
def Booking.occurrence_dates (b : Booking) : List Nat :=
  if b.occurrences ≤ 1 ∨ b.repeat_ = RepeatFrequency.NONE then
    [b.scheduled_date]
  else
    b.scheduled_date :: occLoop b.repeat_ b.scheduled_date (b.occurrences - 1).toNat

/-- The day offset each loop iteration adds for a given frequency. -/
def freqOffset : RepeatFrequency → Nat
  | RepeatFrequency.NONE => 0
  | RepeatFrequency.WEEKLY => 7
  | RepeatFrequency.FORTNIGHTLY => 14
  | RepeatFrequency.MONTHLY => 30

/-- One loop step under the bounded Python `date` type: `current + timedelta`
raises `OverflowError` (here: `none`) when the resulting ordinal leaves
`1 .. MAXORDINAL`. -/
def stepDateChecked (f : RepeatFrequency) (d : Nat) : Option Nat :=
  if 1 ≤ stepDate f d ∧ stepDate f d ≤ MAXORDINAL then some (stepDate f d)
  else none

/-- The loop of `Booking.occurrence_dates` under bounded dates: the first
step that overflows aborts the whole call (the exception propagates). -/
def occLoopChecked (f : RepeatFrequency) (c : Nat) : Nat → Option (List Nat)
  | 0 => some []
  | k + 1 =>
    match stepDateChecked f c with
    | none => none
    | some c' => (occLoopChecked f c' k).map (fun l => c' :: l)

/-- Embedding of `Booking.occurrence_dates` as executed on the bounded Python `date`
type: `none` is an `OverflowError` escaping the method. -/
def Booking.occurrence_datesChecked (b : Booking) : Option (List Nat) :=
  if b.occurrences ≤ 1 ∨ b.repeat_ = RepeatFrequency.NONE then
    some [b.scheduled_date]
  else
    (occLoopChecked b.repeat_ b.scheduled_date (b.occurrences - 1).toNat).map
      (fun l => b.scheduled_date :: l)

/-- Embedding of a call to `Booking.occurrence_dates` as a method on the
receiver state: the body only reads `self` (it appends to a local list and
assigns only local variables), so the call returns the computed dates and
leaves the receiver unchanged. -/
def Booking.occurrence_dates_call (b : Booking) : List Nat × Booking :=
  (b.occurrence_dates, b)

/-- Insertion-ordered Python `dict` assignment `m[k] = v`: replace in
place when the key is present, append otherwise. -/
def dictInsert {α : Type} [BEq α] {β : Type} (m : List (α × β)) (k : α) (v : β) :
    List (α × β) :=
  if m.any (fun p => p.1 == k) then
    m.map (fun p => if p.1 == k then (k, v) else p)
  else
    m ++ [(k, v)]

/-- Python `dict.get k`: the value stored at the first (unique) matching
key, if any. -/
def dictGet {α : Type} [BEq α] {β : Type} (m : List (α × β)) (k : α) : Option β :=
  (m.find? (fun p => p.1 == k)).map Prod.snd

/-- The `ServiceCatalog` store of `app.py`. -/
structure ServiceCatalog where
  services : List (String × Service)

/-- Embedding of `ServiceCatalog.add`: build the `Service` with the code uppercased and
assign it into the dict under that uppercased code; returns the updated
catalog together with the created service. -/
def ServiceCatalog.add (c : ServiceCatalog) (code name description : String)
    (base_price duration_minutes : Int) : ServiceCatalog × Service :=
  let svc : Service :=
    { code := pyUpper code, name := name, description := description,
      base_price := base_price, duration_minutes := duration_minutes }
  (⟨dictInsert c.services svc.code svc⟩, svc)

/-- Embedding of `ServiceCatalog.get`: look the uppercased code up in the dict. -/
def ServiceCatalog.get (c : ServiceCatalog) (code : String) : Option Service :=
  dictGet c.services (pyUpper code)

/-- Embedding of `ServiceCatalog.list`: the stored services in insertion order. -/
def ServiceCatalog.list (c : ServiceCatalog) : List Service :=
  c.services.map Prod.snd

/-- The `BookingManager` store of `app.py`; `id_counter` is the next id
the `itertools.count(1)` counter will yield. -/
structure BookingManager where
  bookings : List (Nat × Booking)
  id_counter : Nat

/-- Embedding of `BookingManager.add`: draw the next id, build the `Booking` with the
service code uppercased and `occurrences` clamped by `max 1`, store it,
and return the updated manager with the created booking. -/
def BookingManager.add (m : BookingManager) (client_id : Nat) (service_code : String)
    (scheduled_date : Nat) (rep : RepeatFrequency) (occurrences : Int)
    (notes : String) : BookingManager × Booking :=
  let bid := m.id_counter
  let booking : Booking :=
    { id := bid, client_id := client_id, service_code := pyUpper service_code,
      scheduled_date := scheduled_date, repeat_ := rep,
      occurrences := max 1 occurrences, notes := notes }
  (⟨dictInsert m.bookings bid booking, bid + 1⟩, booking)

/-- Embedding of `BookingManager.list`: the stored bookings in insertion order. -/
def BookingManager.list (m : BookingManager) : List Booking :=
  m.bookings.map Prod.snd

/-- CLI ingestion of the repeat string in `interactive_menu`
(`app.py` line 310): strip, lowercase, default empty input to "none". -/
def normalizeRepeatInput (raw : String) : String :=
  if pyLower (pyStrip raw) = "" then ("none") else pyLower (pyStrip raw)

/-- CLI mapping of the normalized repeat string to the enum
(`app.py` line 311): a string that is one of the four enum values selects
its variant, anything else falls back to `NONE`. -/
def parseRepeatFrequency (raw : String) : RepeatFrequency :=
  if normalizeRepeatInput raw = "none" then RepeatFrequency.NONE
  else if normalizeRepeatInput raw = "weekly" then RepeatFrequency.WEEKLY
  else if normalizeRepeatInput raw = "fortnightly" then RepeatFrequency.FORTNIGHTLY
  else if normalizeRepeatInput raw = "monthly" then RepeatFrequency.MONTHLY
  else RepeatFrequency.NONE

/-- Unfolding the frequency branch: one loop step always adds the fixed
day offset of the frequency. -/
lemma stepDate_eq (f : RepeatFrequency) (d : Nat) : stepDate f d = d + freqOffset f := by
  cases f <;> simp [stepDate, freqOffset]

/-- The loop producing the stepped dates yields exactly `k` of them. -/
lemma occLoop_length (f : RepeatFrequency) (c k : Nat) : (occLoop f c k).length = k := by
  induction k generalizing c with
  | zero => rfl
  | succ k ih => simp [occLoop, ih]

/-- Every adjacent pair in the anchor-plus-loop list differs by the fixed
day offset of the frequency. -/
lemma chain_occLoop (f : RepeatFrequency) (c k : Nat) :
    List.Chain' (fun a b => b = a + freqOffset f) (c :: occLoop f c k) := by
  induction k generalizing c with
  | zero => simp [occLoop]
  | succ k ih =>
    rw [occLoop, List.chain'_cons]
    exact ⟨stepDate_eq f c, ih (stepDate f c)⟩

/-- When the guard does not fire, adjacent occurrence dates differ by the
day offset of the repeat frequency of the booking. -/
lemma occurrence_dates_chain (b : Booking) (h2 : 2 ≤ b.occurrences)
    (hf : b.repeat_ ≠ RepeatFrequency.NONE) :
    List.Chain' (fun x y => y = x + freqOffset b.repeat_) b.occurrence_dates := by
  have hng : ¬ (b.occurrences ≤ 1 ∨ b.repeat_ = RepeatFrequency.NONE) := by
    rintro (hle | hnone)
    · omega
    · exact hf hnone
  unfold Booking.occurrence_dates
  rw [if_neg hng]
  exact chain_occLoop _ _ _

/-- C1: for every anchor date and occurrence count of at least 2,
`Booking.occurrence_dates` advances each successive date from its
predecessor by exactly 7 days for weekly, 14 for fortnightly and 30 for
monthly (a fixed 30-day offset); in particular expanding anchor 2024-01-01
with monthly and count 3 yields 2024-01-01, 2024-01-31, 2024-03-01. -/
theorem occurrence_dates_step_sizes (b : Booking) (h : 2 ≤ b.occurrences) :
    ((b.repeat_ = RepeatFrequency.WEEKLY →
      List.Chain' (fun x y => y = x + 7) b.occurrence_dates) ∧
     (b.repeat_ = RepeatFrequency.FORTNIGHTLY →
      List.Chain' (fun x y => y = x + 14) b.occurrence_dates) ∧
     (b.repeat_ = RepeatFrequency.MONTHLY →
      List.Chain' (fun x y => y = x + 30) b.occurrence_dates)) ∧
    (Booking.mk 1 1 "MOW" (toordinal 2024 1 1) RepeatFrequency.MONTHLY 3 "").occurrence_dates
      = [toordinal 2024 1 1, toordinal 2024 1 31, toordinal 2024 3 1] := by
  refine ⟨⟨?_, ?_, ?_⟩, by decide⟩ <;> intro hf <;>
    · have hc := occurrence_dates_chain b h (by rw [hf]; intro hh; cases hh)
      simpa [hf, freqOffset] using hc

/-- Witness for C1 at a concrete booking with weekly repeat and count 3. -/
theorem occurrence_dates_step_sizes_witness :
    List.Chain' (fun x y => y = x + 7)
      (Booking.mk 1 1 "MOW" 100 RepeatFrequency.WEEKLY 3 "").occurrence_dates :=
  (occurrence_dates_step_sizes (Booking.mk 1 1 "MOW" 100 RepeatFrequency.WEEKLY 3 "")
    (by decide)).1.1 rfl

/-- C2 counterexample: with frequency NONE and occurrence count 2 the
method returns a single date, so the length is 1 and not the occurrence
count; the claim as stated (length equals the count for every frequency)
is false at this input. -/
theorem occurrence_dates_length_cex :
    (Booking.mk 1 1 "MOW" 738886 RepeatFrequency.NONE 2 "").occurrences = 2 ∧
    ((Booking.mk 1 1 "MOW" 738886 RepeatFrequency.NONE 2 "").occurrence_dates).length = 1 ∧
    ((Booking.mk 1 1 "MOW" 738886 RepeatFrequency.NONE 2 "").occurrence_dates).length ≠ 2 := by
  decide

/-- C2 as amended: for every anchor date, every frequency other than
NONE, and every occurrence count of at least 1, the returned list has
length exactly the occurrence count (for NONE the length is always 1, see
the counterexample). -/
theorem occurrence_dates_length (b : Booking) (hf : b.repeat_ ≠ RepeatFrequency.NONE)
    (h1 : 1 ≤ b.occurrences) :
    (b.occurrence_dates).length = b.occurrences.toNat := by
  unfold Booking.occurrence_dates
  by_cases hle : b.occurrences ≤ 1
  · rw [if_pos (Or.inl hle)]
    simp
    omega
  · have hng : ¬ (b.occurrences ≤ 1 ∨ b.repeat_ = RepeatFrequency.NONE) := by
      rintro (h | h)
      · exact hle h
      · exact hf h
    rw [if_neg hng]
    simp [occLoop_length]
    omega

/-- Witness for the amended C2 at a concrete fortnightly booking with
count 4. -/
theorem occurrence_dates_length_witness :
    ((Booking.mk 1 1 "MOW" 100 RepeatFrequency.FORTNIGHTLY 4 "").occurrence_dates).length
      = (4 : Int).toNat :=
  occurrence_dates_length (Booking.mk 1 1 "MOW" 100 RepeatFrequency.FORTNIGHTLY 4 "")
    (by decide) (by decide)

/-- C3: the method returns exactly the one-element list holding the
anchor date whenever the frequency is NONE (any count) or the occurrence
count is at most 1; zero and negative counts thus behave exactly like
count 1, and no input is rejected. -/
theorem occurrence_dates_single (b : Booking)
    (h : b.repeat_ = RepeatFrequency.NONE ∨ b.occurrences ≤ 1) :
    b.occurrence_dates = [b.scheduled_date] := by
  unfold Booking.occurrence_dates
  rcases h with h | h
  · rw [if_pos (Or.inr h)]
  · rw [if_pos (Or.inl h)]

/-- Witness for C3 at a weekly booking with negative occurrence count. -/
theorem occurrence_dates_single_witness :
    (Booking.mk 2 1 "MOW" 200 RepeatFrequency.WEEKLY (-3) "").occurrence_dates = [200] :=
  occurrence_dates_single (Booking.mk 2 1 "MOW" 200 RepeatFrequency.WEEKLY (-3) "")
    (Or.inr (by decide))

/-- C4: for every booking with occurrence count at least 2 the returned
date sequence is strictly increasing (each date strictly greater than its
predecessor). -/
theorem occurrence_dates_strict_mono (b : Booking) (h : 2 ≤ b.occurrences) :
    List.Chain' (fun x y => x < y) b.occurrence_dates := by
  by_cases hf : b.repeat_ = RepeatFrequency.NONE
  · unfold Booking.occurrence_dates
    rw [if_pos (Or.inr hf)]
    simp
  · have hpos : 0 < freqOffset b.repeat_ := by
      cases hb : b.repeat_
      · exact absurd hb hf
      all_goals simp [freqOffset]
    have hc := occurrence_dates_chain b h hf
    exact hc.imp (fun x y hxy => by omega)

/-- Witness for C4 at a concrete monthly booking with count 3. -/
theorem occurrence_dates_strict_mono_witness :
    List.Chain' (fun x y => x < y)
      (Booking.mk 1 1 "MOW" 100 RepeatFrequency.MONTHLY 3 "").occurrence_dates :=
  occurrence_dates_strict_mono (Booking.mk 1 1 "MOW" 100 RepeatFrequency.MONTHLY 3 "")
    (by decide)

/-- When every date the loop will produce stays within the supported date
range, the bounded-date loop succeeds and produces the same dates as the
unbounded one. -/
lemma occLoopChecked_eq (f : RepeatFrequency) (k : Nat) :
    ∀ c : Nat, 1 ≤ c → (∀ d ∈ occLoop f c k, d ≤ MAXORDINAL) →
      occLoopChecked f c k = some (occLoop f c k) := by
  induction k with
  | zero => intro c _ _; rfl
  | succ k ih =>
    intro c hc hbound
    have hmem : stepDate f c ∈ occLoop f c (k + 1) := by
      rw [occLoop]
      exact List.mem_cons_self _ _
    have hstep : stepDate f c ≤ MAXORDINAL := hbound _ hmem
    have h1 : 1 ≤ stepDate f c := by
      rw [stepDate_eq]
      omega
    have htail : ∀ d ∈ occLoop f (stepDate f c) k, d ≤ MAXORDINAL := by
      intro d hd
      refine hbound d ?_
      rw [occLoop]
      exact List.mem_cons_of_mem _ hd
    rw [occLoop, occLoopChecked]
    rw [stepDateChecked, if_pos ⟨h1, hstep⟩]
    simp [ih (stepDate f c) h1 htail]

/-- C5 counterexample: with the anchor at the maximum representable
Python date (9999-12-31, which is `MAXORDINAL`), a weekly repeat, and
occurrence count 2, the very first loop step leaves the supported date
range, so the method raises OverflowError (modelled as `none`) instead of
returning a list; the claim that it never raises for any occurrence count
is false at this input. -/
theorem occurrence_dates_overflow_cex :
    (Booking.mk 1 1 "MOW" (toordinal 9999 12 31) RepeatFrequency.WEEKLY 2 "").occurrence_datesChecked
      = none ∧
    toordinal 9999 12 31 = MAXORDINAL := by
  decide

/-- C5 as amended: the method is total, never raises and returns the
computed list of dates for every occurrence count (including zero and
negative) and every frequency, provided the anchor is a valid date and
every produced date stays within the representable Python date range
(at most 9999-12-31); beyond that range the date arithmetic itself
overflows (see the counterexample). -/
theorem occurrence_dates_total_in_range (b : Booking) (hanchor : 1 ≤ b.scheduled_date)
    (hbound : ∀ d ∈ b.occurrence_dates, d ≤ MAXORDINAL) :
    b.occurrence_datesChecked = some b.occurrence_dates := by
  unfold Booking.occurrence_dates at hbound ⊢
  unfold Booking.occurrence_datesChecked
  by_cases hguard : b.occurrences ≤ 1 ∨ b.repeat_ = RepeatFrequency.NONE
  · rw [if_pos hguard, if_pos hguard]
  · rw [if_neg hguard, if_neg hguard]
    rw [if_neg hguard] at hbound
    have htail : ∀ d ∈ occLoop b.repeat_ b.scheduled_date (b.occurrences - 1).toNat,
        d ≤ MAXORDINAL := fun d hd => hbound d (List.mem_cons_of_mem _ hd)
    rw [occLoopChecked_eq b.repeat_ _ b.scheduled_date hanchor htail]
    rfl

/-- Witness for the amended C5 at a concrete weekly booking well inside
the representable range. -/
theorem occurrence_dates_total_in_range_witness :
    (Booking.mk 1 1 "MOW" 100 RepeatFrequency.WEEKLY 3 "").occurrence_datesChecked
      = some (Booking.mk 1 1 "MOW" 100 RepeatFrequency.WEEKLY 3 "").occurrence_dates :=
  occurrence_dates_total_in_range (Booking.mk 1 1 "MOW" 100 RepeatFrequency.WEEKLY 3 "")
    (by decide) (by decide)

/-- A value present among the stored values after a dict assignment is
either the assigned value or was already stored. -/
lemma mem_values_dictInsert {α β : Type} [BEq α] (m : List (α × β)) (k : α) (v w : β)
    (hw : w ∈ (dictInsert m k v).map Prod.snd) : w = v ∨ w ∈ m.map Prod.snd := by
  unfold dictInsert at hw
  by_cases hany : m.any (fun p => p.1 == k)
  · rw [if_pos hany, List.map_map] at hw
    rcases List.mem_map.mp hw with ⟨p, hp, hpe⟩
    by_cases hk : (p.1 == k) = true
    · left
      simp [hk] at hpe
      exact hpe.symm
    · right
      simp [hk] at hpe
      exact List.mem_map.mpr ⟨p, hp, hpe⟩
  · rw [if_neg hany, List.map_append] at hw
    rcases List.mem_append.mp hw with h | h
    · right; exact h
    · left; simpa using h

/-- C6: every booking created and stored by `BookingManager.add` has an
occurrence count of at least 1: the requested count is silently clamped
through `max 1` before the booking is built (never rejected), the clamped
booking is what gets stored, and the store keeps the invariant that all
stored bookings have occurrence count at least 1. -/
theorem bookingManager_add_clamps (m : BookingManager) (cid : Nat) (sc : String)
    (sd : Nat) (rep : RepeatFrequency) (occ : Int) (notes : String)
    (hm : ∀ b ∈ m.list, 1 ≤ b.occurrences) :
    ((m.add cid sc sd rep occ notes).2).occurrences = max 1 occ ∧
    1 ≤ ((m.add cid sc sd rep occ notes).2).occurrences ∧
    ∀ b ∈ ((m.add cid sc sd rep occ notes).1).list, 1 ≤ b.occurrences := by
  refine ⟨rfl, le_max_left _ _, ?_⟩
  intro b hb
  simp only [BookingManager.add, BookingManager.list] at hb
  rcases mem_values_dictInsert _ _ _ _ hb with h | h
  · subst h
    exact le_max_left _ _
  · exact hm b h

/-- Witness for C6: adding a booking with requested count -5 to an empty
manager stores it with count 1. -/
theorem bookingManager_add_clamps_witness :
    (((BookingManager.mk [] 1).add 1 "mow" 100 RepeatFrequency.WEEKLY (-5) "").2).occurrences
      = max 1 (-5) ∧
    1 ≤ (((BookingManager.mk [] 1).add 1 "mow" 100 RepeatFrequency.WEEKLY (-5) "").2).occurrences ∧
    ∀ b ∈ (((BookingManager.mk [] 1).add 1 "mow" 100 RepeatFrequency.WEEKLY (-5) "").1).list,
      1 ≤ b.occurrences :=
  bookingManager_add_clamps (BookingManager.mk [] 1) 1 "mow" 100 RepeatFrequency.WEEKLY (-5) ""
    (by intro b hb; simp [BookingManager.list] at hb)

/-- C7: the CLI boundary lowercases (after stripping) the entered repeat
string; each of the four recognized values selects its enum variant
case-insensitively, and any other string (including the empty default)
maps to the NONE frequency rather than being rejected. -/
theorem parseRepeatFrequency_spec (s : String) :
    (pyLower (pyStrip s) = "none" → parseRepeatFrequency s = RepeatFrequency.NONE) ∧
    (pyLower (pyStrip s) = "weekly" → parseRepeatFrequency s = RepeatFrequency.WEEKLY) ∧
    (pyLower (pyStrip s) = "fortnightly" → parseRepeatFrequency s = RepeatFrequency.FORTNIGHTLY) ∧
    (pyLower (pyStrip s) = "monthly" → parseRepeatFrequency s = RepeatFrequency.MONTHLY) ∧
    (pyLower (pyStrip s) ≠ "weekly" → pyLower (pyStrip s) ≠ "fortnightly" →
      pyLower (pyStrip s) ≠ "monthly" → parseRepeatFrequency s = RepeatFrequency.NONE) := by
  unfold parseRepeatFrequency normalizeRepeatInput
  refine ⟨?_, ?_, ?_, ?_, ?_⟩
  · intro h; simp [h]
  · intro h; simp [h]
  · intro h; simp [h]
  · intro h; simp [h]
  · intro h1 h2 h3
    by_cases h0 : pyLower (pyStrip s) = ""
    · simp [h0]
    · simp [h0, h1, h2, h3]

/-- Witness for C7: a mixed-case padded weekly string parses to the
weekly variant. -/
theorem parseRepeatFrequency_spec_witness :
    parseRepeatFrequency ("  WEEKLY ") = RepeatFrequency.WEEKLY :=
  (parseRepeatFrequency_spec ("  WEEKLY ")).2.1 (by decide)

/-- C8: `Booking.occurrence_dates` is deterministic and side-effect-free:
the result depends only on the scheduled date, repeat frequency and
occurrence count, so two calls on equal bookings (indeed on any bookings
agreeing on those fields) return identical date lists, and a call leaves
the booking completely unchanged. -/
theorem occurrence_dates_deterministic (b1 b2 : Booking)
    (hd : b1.scheduled_date = b2.scheduled_date) (hr : b1.repeat_ = b2.repeat_)
    (ho : b1.occurrences = b2.occurrences) :
    b1.occurrence_dates = b2.occurrence_dates ∧
    (b1.occurrence_dates_call).2 = b1 := by
  refine ⟨?_, rfl⟩
  unfold Booking.occurrence_dates
  rw [hd, hr, ho]

/-- Witness for C8: two bookings differing only in id, client, service
and notes produce the same dates, and the call leaves the first booking
unchanged. -/
theorem occurrence_dates_deterministic_witness :
    (Booking.mk 1 7 "MOW" 300 RepeatFrequency.WEEKLY 3 "a").occurrence_dates
      = (Booking.mk 2 8 "EDGE" 300 RepeatFrequency.WEEKLY 3 "b").occurrence_dates ∧
    ((Booking.mk 1 7 "MOW" 300 RepeatFrequency.WEEKLY 3 "a").occurrence_dates_call).2
      = Booking.mk 1 7 "MOW" 300 RepeatFrequency.WEEKLY 3 "a" :=
  occurrence_dates_deterministic (Booking.mk 1 7 "MOW" 300 RepeatFrequency.WEEKLY 3 "a")
    (Booking.mk 2 8 "EDGE" 300 RepeatFrequency.WEEKLY 3 "b") rfl rfl rfl

/-- Looking up a key in a list ending with that key succeeds when no
earlier entry carries it. -/
lemma find?_append_last {α β : Type} [BEq α] [LawfulBEq α] (m : List (α × β)) (k : α) (v : β)
    (h : m.any (fun p => p.1 == k) = false) :
    (m ++ [(k, v)]).find? (fun p => p.1 == k) = some (k, v) := by
  induction m with
  | nil => simp
  | cons p t ih =>
    rw [List.any_cons] at h
    have h1 : (p.1 == k) = false := by
      cases hpk : (p.1 == k) <;> simp [hpk] at h ⊢
    have h2 : t.any (fun p => p.1 == k) = false := by
      cases ht : t.any (fun p => p.1 == k) <;> simp [h1, ht] at h ⊢
    rw [List.cons_append, List.find?_cons_of_neg _ (by simp [h1]), ih h2]

/-- Replacing the entry at a present key makes lookup of that key return
the new pair. -/
lemma find?_map_replace {α β : Type} [BEq α] [LawfulBEq α] (m : List (α × β)) (k : α) (v : β)
    (h : m.any (fun p => p.1 == k) = true) :
    (m.map (fun p => if p.1 == k then (k, v) else p)).find? (fun p => p.1 == k)
      = some (k, v) := by
  induction m with
  | nil => simp at h
  | cons p t ih =>
    rw [List.any_cons] at h
    by_cases hpk : (p.1 == k) = true
    · simp [hpk]
    · have ht : t.any (fun p => p.1 == k) = true := by
        rcases Bool.or_eq_true_iff.mp h with h | h
        · exact absurd h hpk
        · exact h
      rw [List.map_cons, if_neg (by simpa using hpk),
        List.find?_cons_of_neg _ (by simpa using hpk), ih ht]

/-- Assigning a key into a dict and reading that key back yields the
assigned value. -/
lemma dictGet_dictInsert_self {α β : Type} [BEq α] [LawfulBEq α]
    (m : List (α × β)) (k : α) (v : β) : dictGet (dictInsert m k v) k = some v := by
  unfold dictInsert dictGet
  by_cases h : m.any (fun p => p.1 == k) = true
  · rw [if_pos h, find?_map_replace m k v h]
    rfl
  · rw [if_neg h, find?_append_last m k v (Bool.eq_false_iff.mpr h)]
    rfl

/-- A successful dict lookup means some stored entry carries the key. -/
lemma isSome_dictGet_any {α β : Type} [BEq α] (m : List (α × β)) (k : α)
    (h : (dictGet m k).isSome) : m.any (fun p => p.1 == k) = true := by
  unfold dictGet at h
  induction m with
  | nil => simp at h
  | cons p t ih =>
    by_cases hpk : (p.1 == k) = true
    · simp [List.any_cons, hpk]
    · rw [List.find?_cons_of_neg _ (by simpa using hpk)] at h
      simp [List.any_cons, hpk, ih h]

/-- Assigning to a present key replaces in place and keeps the number of
entries. -/
lemma dictInsert_length_of_any {α β : Type} [BEq α] (m : List (α × β)) (k : α) (v : β)
    (h : m.any (fun p => p.1 == k) = true) : (dictInsert m k v).length = m.length := by
  unfold dictInsert
  rw [if_pos h, List.length_map]

/-- C9: after `ServiceCatalog.add` with some code, `get` returns the
stored service for every string whose uppercasing equals the uppercasing
of that code, and the stored service carries the uppercased code
(case-insensitive round trip of add followed by get). -/
theorem serviceCatalog_add_get_roundtrip (c : ServiceCatalog) (code nm ds : String)
    (pr du : Int) (x : String) (hx : pyUpper x = pyUpper code) :
    ((c.add code nm ds pr du).1).get x = some ((c.add code nm ds pr du).2) ∧
    ((c.add code nm ds pr du).2).code = pyUpper code := by
  refine ⟨?_, rfl⟩
  unfold ServiceCatalog.add ServiceCatalog.get
  simp only []
  rw [hx]
  exact dictGet_dictInsert_self _ _ _

/-- Witness for C9: adding code "mow" to the empty catalog and reading it
back through the differently-cased "MoW". -/
theorem serviceCatalog_add_get_roundtrip_witness :
    (((ServiceCatalog.mk []).add ("mow") "Mowing" "Standard" 60 45).1).get ("MoW")
      = some (((ServiceCatalog.mk []).add ("mow") "Mowing" "Standard" 60 45).2) ∧
    (((ServiceCatalog.mk []).add ("mow") "Mowing" "Standard" 60 45).2).code = pyUpper ("mow") :=
  serviceCatalog_add_get_roundtrip (ServiceCatalog.mk []) ("mow") "Mowing" "Standard" 60 45
    ("MoW") (by decide)

/-- C10: adding a service whose uppercased code matches an already-stored
code silently replaces the entry: the catalog does not grow (same number
of listed services) and lookup of that code now returns the newly created
service, so the replaced entry is no longer retrievable under the code. -/
theorem serviceCatalog_add_replaces (c : ServiceCatalog) (code nm ds : String)
    (pr du : Int) (h : ((c.get code)).isSome) :
    ((c.add code nm ds pr du).1).list.length = c.list.length ∧
    ((c.add code nm ds pr du).1).get code = some ((c.add code nm ds pr du).2) := by
  constructor
  · unfold ServiceCatalog.add ServiceCatalog.list
    simp only [List.length_map]
    exact dictInsert_length_of_any _ _ _ (isSome_dictGet_any _ _ h)
  · unfold ServiceCatalog.add ServiceCatalog.get
    exact dictGet_dictInsert_self _ _ _

/-- Witness for C10: re-adding code "mow" to a catalog already holding a
service stored under "MOW" keeps the catalog at one entry and makes
lookup return the new service. -/
theorem serviceCatalog_add_replaces_witness :
    (((ServiceCatalog.mk [("MOW", Service.mk ("MOW") "Old" "old" 50 40)]).add
        ("mow") "New" "new" 60 45).1).list.length
      = (ServiceCatalog.mk [("MOW", Service.mk ("MOW") "Old" "old" 50 40)]).list.length ∧
    (((ServiceCatalog.mk [("MOW", Service.mk ("MOW") "Old" "old" 50 40)]).add
        ("mow") "New" "new" 60 45).1).get ("mow")
      = some (((ServiceCatalog.mk [("MOW", Service.mk ("MOW") "Old" "old" 50 40)]).add
        ("mow") "New" "new" 60 45).2) :=
  serviceCatalog_add_replaces (ServiceCatalog.mk [("MOW", Service.mk ("MOW") "Old" "old" 50 40)])
    ("mow") "New" "new" 60 45 (by decide)
